import Mathlib

/-!
Formal model of the `opencode-voice` plugin (`src/index.ts`).

The development embeds, as executable Lean definitions, the parts of the
plugin that carry its specification content: the TTS text sanitization
pipeline, the configuration snapshot / fingerprint logic, the per-session
enablement policy, and — most importantly — the speak-request arbitration
machine (`speakSession`) together with a small-step semantics of the
host's cooperative (single-threaded, `await`-interleaved) execution.
Theorems about these definitions settle the specification claims.
-/

namespace OpencodeVoice

/-! ### String machinery

Executable models of the JavaScript string operations used by
`src/index.ts`: the `\s` whitespace class, `trim`/`trimEnd`, and the three
regex rewrites performed by `sanitizeForTts`.  All functions work on
`List Char` and are wrapped into `String` at the boundaries. -/

/-- The backtick character (code point 96). -/
def btick : Char := Char.ofNat 96

/-- The JavaScript `\s` character class (the same set is removed by
`String.prototype.trim` and `trimEnd`). -/
def isJsSpace (c : Char) : Bool :=
  c = ' ' || c = '\t' || c = '\n' || c = '\r' || c.val = 11 || c.val = 12 ||
  c.val = 0xa0 || c.val = 0x1680 || (0x2000 ≤ c.val && c.val ≤ 0x200a) ||
  c.val = 0x2028 || c.val = 0x2029 || c.val = 0x202f || c.val = 0x205f ||
  c.val = 0x3000 || c.val = 0xfeff

/-- JavaScript `String.prototype.trim` on a character list. -/
def jsTrim (cs : List Char) : List Char :=
  ((cs.dropWhile isJsSpace).reverse.dropWhile isJsSpace).reverse

/-- JavaScript `String.prototype.trimEnd` on a character list. -/
def jsTrimEnd (cs : List Char) : List Char :=
  (cs.reverse.dropWhile isJsSpace).reverse

/-- JavaScript `String.prototype.trim` on a `String`. -/
def jsTrimStr (s : String) : String := String.mk (jsTrim s.data)

/-- Worker for `collapseWs`; the flag records whether the previous character
belonged to a whitespace run (so the run produces a single space). -/
def collapseWsAux : Bool → List Char → List Char
  | _, [] => []
  | prevSpace, c :: rest =>
    if isJsSpace c then
      if prevSpace then collapseWsAux true rest else ' ' :: collapseWsAux true rest
    else c :: collapseWsAux false rest

/-- `text.replace(/\s+/g, " ")`: every maximal whitespace run becomes one
space. -/
def collapseWs (cs : List Char) : List Char := collapseWsAux false cs

/-- Does the list start with a triple-backtick fence? -/
def startsFence (cs : List Char) : Bool := cs.take 3 == [btick, btick, btick]

/-- Split at the first triple-backtick fence: `some (before, after)` where
`before` is the text before the fence and `after` the text after it;
`none` when no fence occurs. -/
def splitAtFence : List Char → Option (List Char × List Char)
  | [] => none
  | c :: rest =>
    if startsFence (c :: rest) then some ([], rest.drop 2)
    else (splitAtFence rest).map fun p => (c :: p.1, p.2)

/-- Fuelled worker for `stripCodeBlocks`.  The fuel only bounds the number
of replaced regions; since every replaced region consumes at least six
characters, fuel equal to the input length is always sufficient, so the
wrapper below computes exactly the JavaScript global replace. -/
def stripCodeBlocksF : Nat → List Char → List Char
  | 0, cs => cs
  | fuel + 1, cs =>
    match splitAtFence cs with
    | none => cs
    | some p =>
      match splitAtFence p.2 with
      | none => cs
      | some q => p.1 ++ ' ' :: stripCodeBlocksF fuel q.2

/-- `text.replace(/```[\s\S]*?```/g, " ")`: each minimally (non-greedily)
matched fenced region — from a fence to the *next* fence — becomes a single
space; an unmatched trailing fence is left in place, exactly as the lazy
JavaScript regex behaves under a global scan. -/
def stripCodeBlocks (cs : List Char) : List Char := stripCodeBlocksF cs.length cs

/-- Split at the first single backtick: `some (before, after)`. -/
def splitAtTick : List Char → Option (List Char × List Char)
  | [] => none
  | c :: rest =>
    if c = btick then some ([], rest)
    else (splitAtTick rest).map fun p => (c :: p.1, p.2)

/-- Fuelled worker for `stripInlineCode`; fuel equal to the input length
is always sufficient (every span consumes at least two characters). -/
def stripInlineCodeF : Nat → List Char → List Char
  | 0, cs => cs
  | fuel + 1, cs =>
    match splitAtTick cs with
    | none => cs
    | some p =>
      match splitAtTick p.2 with
      | none => cs
      | some q => p.1 ++ ' ' :: stripInlineCodeF fuel q.2

/-- `text.replace(/`[^`]*`/g, " ")`: each backtick-delimited inline code
span becomes a single space; an unmatched trailing backtick survives. -/
def stripInlineCode (cs : List Char) : List Char := stripInlineCodeF cs.length cs

/-- Expect a fixed character at the head of the list, returning the tail. -/
def expectChar (c : Char) : List Char → Option (List Char)
  | [] => none
  | x :: rest => if x = c then some rest else none

/-- Try to match `\[([^\]]+)\]\([^)]+\)` at the head of the list; on success
return the captured label and the remainder after the closing parenthesis. -/
def tryLink (cs : List Char) : Option (List Char × List Char) :=
  match expectChar '[' cs with
  | none => none
  | some rest =>
    if (rest.takeWhile (fun x => x ≠ ']')).isEmpty then none else
    match expectChar ']' (rest.dropWhile (fun x => x ≠ ']')) with
    | none => none
    | some rest2 =>
      match expectChar '(' rest2 with
      | none => none
      | some rest3 =>
        if (rest3.takeWhile (fun z => z ≠ ')')).isEmpty then none else
        match expectChar ')' (rest3.dropWhile (fun z => z ≠ ')')) with
        | none => none
        | some rest5 => some (rest.takeWhile (fun x => x ≠ ']'), rest5)

/-- Fuelled worker for `rewriteLinks`; fuel equal to the input length is
always sufficient (every step consumes at least one character). -/
def rewriteLinksF : Nat → List Char → List Char
  | 0, cs => cs
  | _ + 1, [] => []
  | fuel + 1, c :: rest =>
    match tryLink (c :: rest) with
    | some p => p.1 ++ rewriteLinksF fuel p.2
    | none => c :: rewriteLinksF fuel rest

/-- `text.replace(/\[([^\]]+)\]\([^)]+\)/g, "$1")`: markdown links become
their label; the scan advances one character when no link matches. -/
def rewriteLinks (cs : List Char) : List Char := rewriteLinksF cs.length cs

/-- Fuelled worker for `afterLastFence`. -/
def afterLastFenceF : Nat → List Char → Option (List Char)
  | 0, _ => none
  | fuel + 1, cs =>
    match splitAtFence cs with
    | none => none
    | some p =>
      match afterLastFenceF fuel p.2 with
      | none => some p.2
      | some s => some s

/-- The suffix after the *last* triple-backtick fence of the list, when a
fence occurs at all (fuel equal to the input length is always sufficient:
every fence consumes three characters). -/
def afterLastFence (cs : List Char) : Option (List Char) :=
  afterLastFenceF cs.length cs

/-- Fenced-block removal as the specification text for claim C9 words it:
one *greedily* matched region per scan, running from the first fence to
the last fence of the remaining text.  This definition follows the spec's
words (maximal munch) and exists to be compared with `stripCodeBlocks`,
which models the source's non-greedy `/```[\s\S]*?```/g`. -/
def stripCodeBlocksGreedy (cs : List Char) : List Char :=
  match splitAtFence cs with
  | none => cs
  | some p =>
    match afterLastFence p.2 with
    | none => cs
    | some rest => p.1 ++ ' ' :: rest

/-- The character-level sanitization pipeline of `sanitizeForTts`. -/
def sanitizeChars (cs : List Char) : List Char :=
  jsTrim (collapseWs (rewriteLinks (stripInlineCode (stripCodeBlocks cs))))

/-- `sanitizeForTts` from `src/index.ts`: drop fenced code blocks (each
replaced by one space, lazily matched), drop inline code spans (one space
each), rewrite `[label](url)` to `label`, collapse whitespace runs to a
single space, and trim both ends. -/
def sanitizeForTts (s : String) : String :=
  String.mk (sanitizeChars s.data)

/-- The sanitization pipeline with the *greedy* block removal that the
specification's words describe; compared against `sanitizeForTts` for
claim C9. -/
def sanitizeForTtsSpecGreedy (s : String) : String :=
  String.mk (jsTrim (collapseWs (rewriteLinks (stripInlineCode (stripCodeBlocksGreedy s.data)))))

/-- `truncateForTts` from `src/index.ts`: cut at `maxChars` characters and
trim trailing whitespace; the flag reports whether truncation happened. -/
def truncateForTts (text : String) (maxChars : Int) : String × Bool :=
  if (text.length : Int) ≤ maxChars then (text, false)
  else (String.mk (jsTrimEnd (text.data.take maxChars.toNat)), true)

/-! ### Messages -/

/-- A text content fragment (`TextPart` in the source). -/
structure TextPart where
  text : String
  ignored : Bool
deriving DecidableEq

/-- A content fragment; non-text fragments only record their kind. -/
inductive Part
  | text (t : TextPart)
  | other (kind : String)
deriving DecidableEq

/-- Message header (`MessageInfo` in the source). -/
structure MessageInfo where
  id : String
  role : String
deriving DecidableEq

/-- A message plus its fragments, as returned by the host's message list. -/
structure MessageWithParts where
  info : MessageInfo
  parts : List Part
deriving DecidableEq

/-- The contribution of one fragment to `joinTextParts`: text fragments that
are not ignored and non-empty. -/
def partText : Part → Option String
  | .text t => if t.ignored then none else if t.text = "" then none else some t.text
  | .other _ => none

/-- `joinTextParts` from `src/index.ts`: concatenate eligible text
fragments with no separator, then trim. -/
def joinTextParts (parts : List Part) : String :=
  jsTrimStr (String.join (parts.filterMap partText))

/-! ### Configuration -/

inductive VoiceMode
  | continuous
  | pushToTalk
deriving DecidableEq

/-- Where the loaded config file came from (`"project" | "global" | "none"`). -/
inductive ConfigSource
  | project
  | global
  | nofile
deriving DecidableEq

/-- The optional `player` object of a raw `voice.json`. -/
structure PlayerConfig where
  cmd : Option String
  args : Option (List String)
deriving DecidableEq

/-- A raw (partial) `voice.json` as parsed from disk (`VoiceConfig`). -/
structure VoiceConfig where
  enabled : Option Bool
  mode : Option VoiceMode
  language : Option String
  voiceId : Option String
  modelId : Option String
  outputFormat : Option String
  player : Option PlayerConfig
  maxChars : Option Int
deriving DecidableEq

/-- The raw config `{}` used when no file exists. -/
def emptyVoiceConfig : VoiceConfig :=
  ⟨none, none, none, none, none, none, none, none⟩

/-- The fully-defaulted player sub-config. -/
structure Player where
  cmd : String
  args : List String
deriving DecidableEq

/-- A fully-defaulted configuration snapshot (the result of `defaultConfig`). -/
structure ConfigSnap where
  enabled : Bool
  mode : VoiceMode
  language : Option String
  voiceId : Option String
  modelId : Option String
  outputFormat : String
  player : Player
  maxChars : Int
deriving DecidableEq

/-- Result of `audioFormatFor`. -/
structure AudioFormat where
  accept : String
  ext : String
  outputFormat : String
deriving DecidableEq

/-- `normalizeSlash` from the source: backslashes become forward slashes. -/
def normalizeSlash (s : String) : String :=
  String.mk (s.data.map fun c => if c = '\\' then '/' else c)

/-- `isMp3OutputFormat` from the source: lower-case the normalized value
and test for the `mp3` prefix. -/
def isMp3OutputFormat (v : String) : Bool :=
  List.isPrefixOf "mp3".data ((normalizeSlash v).data.map Char.toLower)

/-- `audioFormatFor` from the source: keep a supported (mp3) output format,
fall back to `mp3_44100_128` otherwise. -/
def audioFormatFor (o : Option String) : AudioFormat :=
  { accept := "audio/mpeg"
    ext := "mp3"
    outputFormat :=
      match o with
      | some v => if v ≠ "" && isMp3OutputFormat v then v else "mp3_44100_128"
      | none => "mp3_44100_128" }

/-- `defaultConfig` from the source: fill every field of a raw config. -/
def defaultConfig (vc : VoiceConfig) : ConfigSnap :=
  { enabled := vc.enabled.getD true
    mode := vc.mode.getD .continuous
    language := vc.language
    voiceId := vc.voiceId
    modelId := vc.modelId
    outputFormat := (audioFormatFor vc.outputFormat).outputFormat
    player :=
      { cmd := (vc.player.bind PlayerConfig.cmd).getD "mpv"
        args := (vc.player.bind PlayerConfig.args).getD
          ["--no-terminal", "--force-window=no", "--keep-open=no"] }
    maxChars := vc.maxChars.getD 3000 }

def sourceStr : ConfigSource → String
  | .project => "project"
  | .global => "global"
  | .nofile => "none"

def modeStr : VoiceMode → String
  | .continuous => "continuous"
  | .pushToTalk => "push-to-talk"

/-- `fingerprint` from the source: `;`-joined list of the semantically
relevant fields of a snapshot plus its source tag (player args joined
with `|`). -/
def fingerprint (cfg : ConfigSnap) (source : ConfigSource) : String :=
  String.intercalate ";"
    [sourceStr source,
     if cfg.enabled then "1" else "0",
     modeStr cfg.mode,
     cfg.language.getD "",
     cfg.voiceId.getD "",
     cfg.modelId.getD "",
     cfg.outputFormat,
     cfg.player.cmd,
     String.intercalate "|" cfg.player.args,
     toString cfg.maxChars]

/-! ### Session bookkeeping (JS `Map` / `Set` on session ids) -/

/-- `Map.get`. -/
def mapGet : List (String × String) → String → Option String
  | [], _ => none
  | (k, v) :: rest, key => if k = key then some v else mapGet rest key

/-- `Map.set` (replace or append). -/
def mapSet : List (String × String) → String → String → List (String × String)
  | [], key, v => [(key, v)]
  | (k, w) :: rest, key, v =>
    if k = key then (key, v) :: rest else (k, w) :: mapSet rest key v

/-- `Map.delete`. -/
def mapDelete (m : List (String × String)) (key : String) : List (String × String) :=
  m.filter fun p => p.1 != key

/-- `Set.add`. -/
def insertSession (l : List String) (sid : String) : List String :=
  if l.contains sid then l else sid :: l

/-- `Set.delete`. -/
def removeSession (l : List String) (sid : String) : List String :=
  l.filter fun x => x != sid

/-! ### The arbitration machine

`speakSession` is an `async` function whose only shared-state effects are
on `state.speaking`, `state.pendingSpeak` and `state.lastSpokenAssistantMessage`.
Between its `await` suspension points the host may deliver further events.
We model each in-flight invocation as an *activation* sitting at one of its
suspension points, and the whole plugin as a configuration
(shared state + list of in-flight activations) acted on by host commands.
A synchronous segment of the source (from one `await` to the next) is one
step of the machine. -/

inductive Reason
  | idle
  | manual
deriving DecidableEq

/-- A speak request (`{ sessionID, reason }` in the source). -/
structure SpeakReq where
  sessionID : String
  reason : Reason
deriving DecidableEq

/-- Result of `getLatestAssistant`. -/
structure LatestMsg where
  messageID : String
  text : String
  truncated : Bool
deriving DecidableEq

/-- The suspension point at which a pipeline activation is parked:
awaiting the message fetch, the truncation-warning toast, the TTS call,
the playback, or the error toast of the `catch` block. -/
inductive PipePhase
  | fetching
  | toastTruncated (latest : LatestMsg)
  | awaitingTts (latest : LatestMsg)
  | awaitingPlay (latest : LatestMsg)
  | toastError
deriving DecidableEq

/-- An in-flight `speakSession` invocation suspended at an `await`.
`preToast` invocations aborted before `state.speaking = true` (missing API
key or missing voice id) are parked on their error toast and hold no
pipeline; `pipeline` invocations hold `state.speaking` and carry the
voice id, model id and output format captured at entry. -/
inductive Activation
  | preToast (req : SpeakReq) (missingVoice : Bool)
  | pipeline (req : SpeakReq) (voiceId modelId outputFormat : String) (phase : PipePhase)
deriving DecidableEq

/-- The mutable plugin `state` object (arbitration-relevant fields). -/
structure PluginState where
  config : ConfigSnap
  configSource : ConfigSource
  configFingerprint : String
  lastSessionID : Option String
  disabledSessions : List String
  lastSpoken : List (String × String)
  speaking : Bool
  pendingSpeak : Option SpeakReq
deriving DecidableEq

/-- Process environment: the `ELEVENLABS_API_KEY` variable. -/
structure Env where
  apiKey : Option String
deriving DecidableEq

/-- The external world's answers consumed when an activation resumes: the
host's message list, and whether the TTS call and the playback succeed. -/
structure World where
  messages : List MessageWithParts
  ttsOk : Bool
  playOk : Bool
deriving DecidableEq

inductive ToastKind
  | missingKey
  | missingVoice
  | truncatedWarn
  | voiceError
  | configLoaded (source : ConfigSource) (mode : VoiceMode) (enabled : Bool)
  | configError
  | formatWarn
  | toggleShown
  | modeShown
  | noSession
deriving DecidableEq

/-- Observable actions: the TTS request, the playback invocation, toasts. -/
inductive Action
  | ttsCall (sessionID text voiceId modelId outputFormat : String)
  | playbackStart (sessionID : String)
  | toast (k : ToastKind)
deriving DecidableEq

/-- A machine configuration: shared state plus in-flight activations. -/
structure Config where
  st : PluginState
  acts : List Activation
deriving DecidableEq

/-- `isEnabledForSession` from the source. -/
def isEnabledForSession (st : PluginState) (sid : String) : Bool :=
  if st.config.enabled = false then false
  else if st.disabledSessions.contains sid then false
  else true

/-- Newest-first scan of `getLatestAssistant` (the source iterates the
message list from its end): first assistant message with non-empty
sanitized text wins. -/
def latestScan (maxChars : Int) : List MessageWithParts → Option LatestMsg
  | [] => none
  | msg :: rest =>
    if msg.info.role = "assistant" then
      if sanitizeForTts (joinTextParts msg.parts) = "" then latestScan maxChars rest
      else
        some { messageID := msg.info.id
               text := (truncateForTts (sanitizeForTts (joinTextParts msg.parts))
                 (max 200 maxChars)).1
               truncated := (truncateForTts (sanitizeForTts (joinTextParts msg.parts))
                 (max 200 maxChars)).2 }
    else latestScan maxChars rest

/-- `getLatestAssistant` from the source, as a function of the host's
message-list answer. -/
def getLatestAssistant (maxChars : Int) (messages : List MessageWithParts) :
    Option LatestMsg :=
  latestScan maxChars messages.reverse

/-- The fallback model id (`language ? "eleven_multilingual_v2" :
"eleven_turbo_v2_5"`). -/
def fallbackModel (cfg : ConfigSnap) : String :=
  if cfg.language.getD "" = "" then "eleven_turbo_v2_5" else "eleven_multilingual_v2"

/-- `state.config.modelId || fallback` (JS `||`: empty string is falsy). -/
def resolvedModel (cfg : ConfigSnap) : String :=
  match cfg.modelId with
  | some s => if s = "" then fallbackModel cfg else s
  | none => fallbackModel cfg

/-- The synchronous entry segment of `speakSession` (lines 273-298 of
`src/index.ts`): policy check, busy check (which stores the request in the
pending slot), credential and voice-id checks (which park on an error
toast without taking the pipeline), then `state.speaking = true` and the
start of the fetch.  Returns the new state, the spawned activation (if
any) and the emitted actions. -/
def speakEntry (env : Env) (st : PluginState) (req : SpeakReq) :
    PluginState × Option Activation × List Action :=
  if !(isEnabledForSession st req.sessionID) then (st, none, [])
  else if st.speaking then ({ st with pendingSpeak := some req }, none, [])
  else if env.apiKey.getD "" = "" then
    (st, some (.preToast req false), [.toast .missingKey])
  else if st.config.voiceId.getD "" = "" then
    (st, some (.preToast req true), [.toast .missingVoice])
  else
    ({ st with speaking := true },
     some (.pipeline req (st.config.voiceId.getD "") (resolvedModel st.config)
       (audioFormatFor (some st.config.outputFormat)).outputFormat .fetching),
     [])

/-- The `finally` block of `speakSession`: clear `speaking`, drain the
pending slot and — when it was populated — synchronously re-enter
`speakSession` with the drained request. -/
def finalizeSpeak (env : Env) (st : PluginState) :
    PluginState × Option Activation × List Action :=
  match st.pendingSpeak with
  | none => ({ st with speaking := false }, none, [])
  | some req => speakEntry env { st with speaking := false, pendingSpeak := none } req

/-- Repackage a `finalizeSpeak` result as a replacement activation list. -/
def finActs (r : PluginState × Option Activation × List Action) :
    PluginState × List Activation × List Action :=
  (r.1, r.2.1.toList, r.2.2)

/-- Resume one suspended activation with the world's answer, running the
source's next synchronous segment: advance to the following suspension
point or complete the invocation (running the `finally` block for pipeline
activations). -/
def resumeAct (env : Env) (st : PluginState) (a : Activation) (w : World) :
    PluginState × List Activation × List Action :=
  match a with
  | .preToast _ _ => (st, [], [])
  | .pipeline req v m o ph =>
    match ph with
    | .fetching =>
      match getLatestAssistant st.config.maxChars w.messages with
      | none => finActs (finalizeSpeak env st)
      | some L =>
        if req.reason = .idle ∧ mapGet st.lastSpoken req.sessionID = some L.messageID then
          finActs (finalizeSpeak env st)
        else if L.truncated then
          (st, [.pipeline req v m o (.toastTruncated L)], [.toast .truncatedWarn])
        else
          (st, [.pipeline req v m o (.awaitingTts L)], [.ttsCall req.sessionID L.text v m o])
    | .toastTruncated L =>
      (st, [.pipeline req v m o (.awaitingTts L)], [.ttsCall req.sessionID L.text v m o])
    | .awaitingTts L =>
      if w.ttsOk then
        (st, [.pipeline req v m o (.awaitingPlay L)], [.playbackStart req.sessionID])
      else (st, [.pipeline req v m o .toastError], [.toast .voiceError])
    | .awaitingPlay L =>
      if w.playOk then
        finActs (finalizeSpeak env
          { st with lastSpoken := mapSet st.lastSpoken req.sessionID L.messageID })
      else (st, [.pipeline req v m o .toastError], [.toast .voiceError])
    | .toastError => finActs (finalizeSpeak env st)

/-- Resume the `i`-th in-flight activation. -/
def stepResume (env : Env) (c : Config) (i : Nat) (w : World) : Config × List Action :=
  match c.acts[i]? with
  | none => (c, [])
  | some a =>
    let r := resumeAct env c.st a w
    (⟨r.1, c.acts.take i ++ r.2.1 ++ c.acts.drop (i + 1)⟩, r.2.2)

/-- Run the entry segment of `speakSession` from an event handler; a
spawned activation is appended to the in-flight list. -/
def applyEntry (env : Env) (c : Config) (req : SpeakReq) : Config × List Action :=
  ((⟨(speakEntry env c.st req).1,
     c.acts ++ (speakEntry env c.st req).2.1.toList⟩ : Config),
   (speakEntry env c.st req).2.2)

/-- The three enablement commands. -/
inductive ToggleCmd
  | tOn
  | tOff
  | tToggle
deriving DecidableEq

/-- The `voice.on` / `voice.off` / `voice.toggle` branch of `handleCommand`
(lines 371-389): with no active session the commands flip the global flag;
with an active session they compute the next per-session override from the
*effective* state and store only the override. -/
def handleToggle (st : PluginState) (t : ToggleCmd) : PluginState × List Action :=
  match st.lastSessionID with
  | none =>
    let newEnabled :=
      match t with
      | .tToggle => !st.config.enabled
      | .tOn => true
      | .tOff => false
    ({ st with config := { st.config with enabled := newEnabled } }, [.toast .toggleShown])
  | some sid =>
    let nextOn :=
      match t with
      | .tOn => true
      | .tOff => false
      | .tToggle => !(isEnabledForSession st sid)
    ({ st with disabledSessions :=
        if nextOn then removeSession st.disabledSessions sid
        else insertSession st.disabledSessions sid },
     [.toast .toggleShown])

/-- `reloadConfig` (lines 194-218), as a function of the load attempt's
outcome: on success rebuild the snapshot, source tag and fingerprint, and
emit the "config loaded" toast only when announcing *and* the fingerprint
changed (plus the independent output-format warning); on failure report
the error and leave the state untouched. -/
def reloadApply (st : PluginState) (announce : Bool)
    (loaded : Except String (VoiceConfig × ConfigSource)) : PluginState × List Action :=
  match loaded with
  | .error _ => (st, [.toast .configError])
  | .ok p =>
    ({ st with config := defaultConfig p.1
               configSource := p.2
               configFingerprint := fingerprint (defaultConfig p.1) p.2 },
     (if announce && (fingerprint (defaultConfig p.1) p.2 != st.configFingerprint) then
        [Action.toast (.configLoaded p.2 (defaultConfig p.1).mode (defaultConfig p.1).enabled)]
      else []) ++
     (if announce && !(isMp3OutputFormat (p.1.outputFormat.getD "mp3")) then
        [Action.toast .formatWarn]
      else []))

/-- A host command: an event delivered to the handler, a `voice.*` command,
or the resumption of a suspended activation with the world's answer. -/
inductive Cmd
  | sessionIdle (sid : String)
  | messageUpdated (sid : String)
  | voiceSpeak
  | toggle (t : ToggleCmd)
  | setMode (m : VoiceMode)
  | reload (announce : Bool) (loaded : Except String (VoiceConfig × ConfigSource))
  | sessionDeleted (sid : String)
  | resume (i : Nat) (w : World)

/-- One host step, mirroring the `event` dispatcher and `handleCommand`. -/
def stepCmd (env : Env) (c : Config) : Cmd → Config × List Action
  | .sessionIdle sid =>
    if ({ c.st with lastSessionID := some sid } : PluginState).config.mode = .continuous then
      applyEntry env ⟨{ c.st with lastSessionID := some sid }, c.acts⟩ ⟨sid, .idle⟩
    else (⟨{ c.st with lastSessionID := some sid }, c.acts⟩, [])
  | .messageUpdated sid => (⟨{ c.st with lastSessionID := some sid }, c.acts⟩, [])
  | .voiceSpeak =>
    match c.st.lastSessionID with
    | none => (c, [.toast .noSession])
    | some sid => applyEntry env c ⟨sid, .manual⟩
  | .toggle t => (⟨(handleToggle c.st t).1, c.acts⟩, (handleToggle c.st t).2)
  | .setMode m =>
    (⟨{ c.st with config := { c.st.config with mode := m } }, c.acts⟩, [.toast .modeShown])
  | .reload ann loaded => (⟨(reloadApply c.st ann loaded).1, c.acts⟩, (reloadApply c.st ann loaded).2)
  | .sessionDeleted sid =>
    (⟨{ c.st with disabledSessions := removeSession c.st.disabledSessions sid
                  lastSpoken := mapDelete c.st.lastSpoken sid }, c.acts⟩, [])
  | .resume i w => stepResume env c i w

/-- Run a command sequence, collecting the emitted action trace. -/
def runSteps (env : Env) : Config → List Cmd → Config × List Action
  | c, [] => (c, [])
  | c, cmd :: rest =>
    ((runSteps env (stepCmd env c cmd).1 rest).1,
     (stepCmd env c cmd).2 ++ (runSteps env (stepCmd env c cmd).1 rest).2)

/-- The configuration after a command sequence. -/
def execSteps (env : Env) (c : Config) (cmds : List Cmd) : Config :=
  (runSteps env c cmds).1

/-- The plugin's state right after initialization: not speaking, nothing
pending (the remaining fields are whatever the initial `reloadConfig`
produced). -/
def InitState (st : PluginState) : Prop :=
  st.speaking = false ∧ st.pendingSpeak = none

/-- A configuration reachable from some initial state by host commands. -/
def Reach (env : Env) (c : Config) : Prop :=
  ∃ st0 cmds, InitState st0 ∧ execSteps env ⟨st0, []⟩ cmds = c

/-- Does the activation hold the speak pipeline (`state.speaking`)? -/
def isPipeline : Activation → Bool
  | .preToast _ _ => false
  | .pipeline _ _ _ _ _ => true

/-- Number of in-flight pipeline activations. -/
def pipeCount (acts : List Activation) : Nat := acts.countP isPipeline

/-- The arbitrator invariant: `state.speaking` holds exactly when one
pipeline is in flight, never more than one pipeline is in flight, and the
pending slot is populated only while speaking. -/
def Inv (c : Config) : Prop :=
  (c.st.speaking = true ↔ pipeCount c.acts = 1) ∧
  pipeCount c.acts ≤ 1 ∧
  (c.st.pendingSpeak.isSome = true → c.st.speaking = true)

/-- Rank of a suspension point: strictly decreasing along a pipeline. -/
def phaseRank : PipePhase → Nat
  | .fetching => 5
  | .toastTruncated _ => 4
  | .awaitingTts _ => 3
  | .awaitingPlay _ => 2
  | .toastError => 1

def actRank : Activation → Nat
  | .preToast _ _ => 1
  | .pipeline _ _ _ _ ph => phaseRank ph

def ranksOf (acts : List Activation) : Nat := (acts.map actRank).sum

/-- Termination measure for draining the machine with resume steps only. -/
def arbMeasure (c : Config) : Nat :=
  ranksOf c.acts + (if c.st.pendingSpeak.isSome then 10 else 0)

/-- A world answer that makes every pipeline abort: no messages, failing
TTS and playback. -/
def quietWorld : World := ⟨[], false, false⟩

/-- Host commands that cannot turn the global enabled flag on. -/
def keepsDisabled : Cmd → Bool
  | .toggle t => match t with | .tOff => true | _ => false
  | .reload _ loaded =>
    match loaded with
    | .error _ => true
    | .ok p => p.1.enabled == some false
  | _ => true

def isTtsAction : Action → Bool
  | .ttsCall _ _ _ _ _ => true
  | _ => false

/-- Number of TTS requests in a trace. -/
def countTts (as : List Action) : Nat := as.countP isTtsAction

def isConfigLoadedToast : Action → Bool
  | .toast (.configLoaded _ _ _) => true
  | _ => false

/-- Is this resume step the successful-playback step of a pipeline? -/
def isPlaySuccess (a : Activation) (w : World) : Bool :=
  match a with
  | .pipeline _ _ _ _ (.awaitingPlay _) => w.playOk
  | _ => false

/-! ### Concrete fixtures used by witnesses and counterexamples -/

/-- A minimal raw config: only a voice id. -/
def wVoiceConfig : VoiceConfig := { emptyVoiceConfig with voiceId := some "voice" }

def wSnap : ConfigSnap := defaultConfig wVoiceConfig

/-- A plugin state as it looks right after initialization with `wVoiceConfig`. -/
def wState : PluginState :=
  { config := wSnap
    configSource := .project
    configFingerprint := fingerprint wSnap .project
    lastSessionID := none
    disabledSessions := []
    lastSpoken := []
    speaking := false
    pendingSpeak := none }

def wEnv : Env := ⟨some "key"⟩

def wMsgs : List MessageWithParts := [⟨⟨"m1", "assistant"⟩, [.text ⟨"hello", false⟩]⟩]

def wLatest : LatestMsg := ⟨"m1", "hello", false⟩

def wWorld : World := ⟨wMsgs, true, true⟩

/-- `wState` with the global enabled flag off. -/
def wDisabledState : PluginState :=
  { wState with config := { wSnap with enabled := false } }

/-- `wState` while a pipeline is speaking. -/
def wSpeakingState : PluginState := { wState with speaking := true }

/-- A pipeline activation parked on its playback await. -/
def wPlayAct : Activation :=
  .pipeline ⟨"s1", .idle⟩ "voice" "eleven_turbo_v2_5" "mp3_44100_128" (.awaitingPlay wLatest)

/-- Raw config with a `;` smuggled into `language` (fingerprint-collision
counterexample, first half). -/
def cexVcA : VoiceConfig :=
  { emptyVoiceConfig with language := some "x;", voiceId := some "y" }

/-- Raw config with the `;` moved into `voiceId` instead: a different
configuration with the same fingerprint. -/
def cexVcB : VoiceConfig :=
  { emptyVoiceConfig with language := some "x", voiceId := some ";y" }

/-- A state currently holding `cexVcA`'s snapshot and fingerprint. -/
def cexFpState : PluginState :=
  { wState with config := defaultConfig cexVcA
                configFingerprint := fingerprint (defaultConfig cexVcA) .project }

/-- Toggle counterexample state: global flag off, active session `"s"`
with no session override. -/
def cexToggleState : PluginState :=
  { wState with config := { wSnap with enabled := false }, lastSessionID := some "s" }

/-- `wState` with an active session (for the amended-toggle witness). -/
def wActiveState : PluginState := { wState with lastSessionID := some "s" }

/-- `wState` speaking with a queued pending request. -/
def wPendingState : PluginState :=
  { wState with speaking := true, pendingSpeak := some ⟨"s1", .idle⟩ }

/-! ## Theorems -/

/-- Helper: removing a session id from the disabled set really removes it. -/
theorem not_mem_removeSession (l : List String) (sid : String) :
    sid ∉ removeSession l sid := by
  simp [removeSession]

/-- Helper: adding a session id to the disabled set really adds it. -/
theorem mem_insertSession (l : List String) (sid : String) :
    sid ∈ insertSession l sid := by
  rw [insertSession]
  split
  · exact List.elem_iff.1 (by assumption)
  · simp

/-- C8: a reload whose load attempt fails (unreadable file or malformed
JSON) reports a config error toast and returns the state completely
unchanged — snapshot, source tag and fingerprint all keep their previous
values. -/
theorem c8_failed_reload_preserves_state (st : PluginState) (announce : Bool)
    (msg : String) :
    reloadApply st announce (.error msg) = (st, [.toast .configError]) := rfl

/-- C8 witness: the failure branch evaluated at a concrete state. -/
theorem c8_failed_reload_preserves_state_witness :
    reloadApply wState true (.error "parse error") = (wState, [.toast .configError]) :=
  c8_failed_reload_preserves_state wState true "parse error"

/-- C7 counterexample: with the global flag off and an active session with
no override, `voice.toggle` does *not* invert the effective enabled state —
it stays off (the toggle only clears the absent session override). -/
theorem c7_toggle_not_involutive_cex :
    cexToggleState.lastSessionID = some "s" ∧
    isEnabledForSession cexToggleState "s" = false ∧
    isEnabledForSession (handleToggle cexToggleState .tToggle).1 "s" = false ∧
    ¬ (isEnabledForSession (handleToggle cexToggleState .tToggle).1 "s"
        = !(isEnabledForSession cexToggleState "s")) := by
  refine ⟨rfl, rfl, rfl, by decide⟩

/-- C7 (amended): with an active session, `voice.toggle` computes the new
session override as the negation of the current *effective* state and
stores only the override; the raw global flag is always unchanged, and
when the global flag is on the toggle does invert the effective state.
(When the global flag is off the effective state stays off, per the
counterexample.) -/
theorem c7_session_toggle (st : PluginState) (sid : String)
    (hs : st.lastSessionID = some sid) :
    ((handleToggle st .tToggle).1.config.enabled = st.config.enabled) ∧
    (st.config.enabled = true →
      isEnabledForSession (handleToggle st .tToggle).1 sid
        = !(isEnabledForSession st sid)) := by
  rw [handleToggle, hs]
  constructor
  · rfl
  · intro he
    by_cases hd : sid ∈ st.disabledSessions
    · simp [isEnabledForSession, he, hd, not_mem_removeSession]
    · simp [isEnabledForSession, he, hd, mem_insertSession]

/-- C7 witness: the amended toggle behavior at a concrete state with the
global flag on. -/
theorem c7_session_toggle_witness :
    ((handleToggle wActiveState .tToggle).1.config.enabled = wActiveState.config.enabled) ∧
    (wActiveState.config.enabled = true →
      isEnabledForSession (handleToggle wActiveState .tToggle).1 "s"
        = !(isEnabledForSession wActiveState "s")) :=
  c7_session_toggle wActiveState "s" rfl

/-- C6 counterexample: two *different* configurations (a `;` moved between
the `language` and `voiceId` string fields) share one fingerprint, so
reloading a config whose content changed can produce no "config loaded"
notification even with announce=true — the claim's parenthetical
injectivity statement fails. -/
theorem c6_fingerprint_collision_cex :
    defaultConfig cexVcA ≠ defaultConfig cexVcB ∧
    fingerprint (defaultConfig cexVcA) .project
      = fingerprint (defaultConfig cexVcB) .project ∧
    cexFpState.config = defaultConfig cexVcA ∧
    cexFpState.configFingerprint = fingerprint (defaultConfig cexVcA) .project ∧
    (reloadApply cexFpState true (.ok (cexVcB, .project))).2.filter
      isConfigLoadedToast = [] := by
  refine ⟨by decide, by decide, rfl, rfl, by decide⟩

/-- C6 (amended): with announce=true, the "config loaded" notification is
emitted exactly when the new fingerprint differs from the stored one — an
unchanged fingerprint is never announced, a changed fingerprint always is.
Since distinct configurations can collide on the fingerprint (see the
counterexample), a content change announces only when the fingerprint
changes. -/
theorem c6_announce_iff_fingerprint_changes (st : PluginState) (vc : VoiceConfig)
    (src : ConfigSource) :
    (reloadApply st true (.ok (vc, src))).2.countP isConfigLoadedToast
      = if fingerprint (defaultConfig vc) src = st.configFingerprint then 0 else 1 := by
  have h2 : ∀ c2 : Bool,
      List.countP isConfigLoadedToast (if c2 then [Action.toast .formatWarn] else []) = 0 := by
    intro c2; cases c2 <;> rfl
  rw [reloadApply]
  dsimp only
  rw [List.countP_append, h2]
  by_cases h : fingerprint (defaultConfig vc) src = st.configFingerprint
  · rw [if_pos h]
    have hb : (true && (fingerprint (defaultConfig vc) src != st.configFingerprint))
        = false := by simp [h]
    rw [hb]
    rfl
  · rw [if_neg h]
    have hb : (true && (fingerprint (defaultConfig vc) src != st.configFingerprint))
        = true := by simp [bne_iff_ne, h]
    rw [hb]
    rfl

/-- C10: the per-session last-spoken message id survives every pipeline
step except the successful-playback one: the entry segment never touches
it, the `finally` drain never touches it, and a resume step changes it
only when it is the playback await resolving successfully — in which case
it becomes the spoken message's id. -/
theorem c10_last_spoken_only_on_success :
    (∀ (env : Env) (st : PluginState) (req : SpeakReq),
      (speakEntry env st req).1.lastSpoken = st.lastSpoken) ∧
    (∀ (env : Env) (st : PluginState),
      (finalizeSpeak env st).1.lastSpoken = st.lastSpoken) ∧
    (∀ (env : Env) (st : PluginState) (a : Activation) (w : World),
      isPlaySuccess a w = false →
      (resumeAct env st a w).1.lastSpoken = st.lastSpoken) ∧
    (∀ (env : Env) (st : PluginState) (req : SpeakReq) (v m o : String)
      (L : LatestMsg) (w : World), w.playOk = true →
      (resumeAct env st (.pipeline req v m o (.awaitingPlay L)) w).1.lastSpoken
        = mapSet st.lastSpoken req.sessionID L.messageID) := by
  have e1 : ∀ (env : Env) (st : PluginState) (req : SpeakReq),
      (speakEntry env st req).1.lastSpoken = st.lastSpoken := by
    intro env st req
    rw [speakEntry]
    split_ifs <;> rfl
  have e2 : ∀ (env : Env) (st : PluginState),
      (finalizeSpeak env st).1.lastSpoken = st.lastSpoken := by
    intro env st
    rw [finalizeSpeak]
    cases hp : st.pendingSpeak with
    | none => rfl
    | some req => exact e1 env _ req
  refine ⟨e1, e2, ?_, ?_⟩
  · intro env st a w hfail
    cases a with
    | preToast req mv => rfl
    | pipeline req v m o ph =>
      cases ph with
      | fetching =>
        rw [resumeAct]
        cases hg : getLatestAssistant st.config.maxChars w.messages with
        | none => exact e2 env st
        | some L =>
          dsimp only
          split_ifs with hdup htr
          · exact e2 env st
          · rfl
          · rfl
      | toastTruncated L => rfl
      | awaitingTts L =>
        rw [resumeAct]
        split_ifs <;> rfl
      | awaitingPlay L =>
        have hp : w.playOk = false := by simpa [isPlaySuccess] using hfail
        rw [resumeAct]
        rw [if_neg (by simp [hp])]
      | toastError => exact e2 env st
  · intro env st req v m o L w hplay
    rw [resumeAct]
    rw [if_pos hplay]
    exact e2 env _

/-- C10 witness: the successful-playback step at a concrete configuration
records the spoken message id. -/
theorem c10_last_spoken_only_on_success_witness :
    (resumeAct wEnv wSpeakingState wPlayAct wWorld).1.lastSpoken
      = mapSet wSpeakingState.lastSpoken "s1" "m1" :=
  c10_last_spoken_only_on_success.2.2.2 wEnv wSpeakingState ⟨"s1", .idle⟩ "voice"
    "eleven_turbo_v2_5" "mp3_44100_128" wLatest wWorld rfl

/-- Helper: `splitAtFence` at a leading fence. -/
theorem splitAtFence_fence_head (t : List Char) :
    splitAtFence (btick :: btick :: btick :: t) = some ([], t) := by
  simp [splitAtFence, startsFence]

/-- Helper: `splitAtFence` over a backtick-free prefix followed by a fence. -/
theorem splitAtFence_free_append (sd s : List Char) (hb : btick ∉ sd) :
    splitAtFence (sd ++ btick :: btick :: btick :: s) = some (sd, s) := by
  induction sd with
  | nil => simpa using splitAtFence_fence_head s
  | cons c rest ih =>
    simp only [List.mem_cons, not_or] at hb
    have hc : c ≠ btick := fun h => hb.1 h.symm
    rw [List.cons_append, splitAtFence]
    rw [if_neg (by simp [startsFence, List.take_succ_cons, hc])]
    rw [ih hb.2]
    rfl

/-- Helper: the block stripper fixes the empty list at any fuel. -/
theorem stripCodeBlocksF_nil (fuel : Nat) : stripCodeBlocksF fuel [] = [] := by
  cases fuel <;> rfl

/-- Helper: a message consisting of a single fenced code block (fence-free
body) sanitizes to the empty string. -/
theorem sanitize_only_block (s : String) (hb : btick ∉ s.data) :
    sanitizeForTts ("```" ++ s ++ "```") = "" := by
  have hdata : ("```" ++ s ++ "```").data
      = btick :: btick :: btick :: (s.data ++ [btick, btick, btick]) := by
    rw [String.data_append, String.data_append]
    have h3 : ("```" : String).data = [btick, btick, btick] := by decide
    rw [h3]
    simp
  have hlen : (btick :: btick :: btick :: (s.data ++ [btick, btick, btick])).length
      = (s.data.length + 5) + 1 := by
    simp
  have hstrip : stripCodeBlocks
      (btick :: btick :: btick :: (s.data ++ [btick, btick, btick])) = [' '] := by
    rw [stripCodeBlocks, hlen, stripCodeBlocksF]
    rw [splitAtFence_fence_head]
    dsimp only
    rw [splitAtFence_free_append s.data [] hb]
    dsimp only
    simp [stripCodeBlocksF_nil]
  rw [sanitizeForTts, sanitizeChars, hdata, hstrip]
  rfl

/-- C9 counterexample: the source's block removal is *non-greedy* (lazy
`*?`), not greedy as the claim words it.  On two blocks with text in
between, the code keeps the middle text while the greedy reading of the
claim would swallow everything between the outermost fences. -/
theorem c9_greedy_wording_cex :
    sanitizeForTts "```a``` x ```b```" = "x" ∧
    sanitizeForTtsSpecGreedy "```a``` x ```b```" = "" ∧
    sanitizeForTts "```a``` x ```b```" ≠ sanitizeForTtsSpecGreedy "```a``` x ```b```" := by
  refine ⟨by decide, by decide, by decide⟩

/-- C9 (amended): `sanitize` removes fenced code blocks — *non-greedily*
matched regions delimited by triple backticks, each replaced with a single
space — removes backtick-delimited inline code spans (one space each),
rewrites `[label](url)` to `label`, collapses whitespace runs to a single
space and trims both ends; a message whose only content is a fenced code
block sanitizes to the empty string. -/
theorem c9_sanitize_semantics :
    (∀ s : String, btick ∉ s.data → sanitizeForTts ("```" ++ s ++ "```") = "") ∧
    sanitizeForTts "before `span` after" = "before after" ∧
    sanitizeForTts "see [label](https://u) now" = "see label now" ∧
    sanitizeForTts "  a \n\n b\t c  " = "a b c" ∧
    sanitizeForTts "```one``` kept ```two```" = "kept" := by
  refine ⟨sanitize_only_block, by decide, by decide, by decide, by decide⟩

/-- C9 witness: the quantified conjunct instantiated at a concrete body. -/
theorem c9_sanitize_semantics_witness :
    sanitizeForTts ("```" ++ "code body" ++ "```") = "" :=
  c9_sanitize_semantics.1 "code body" (by decide)

/-- Helper: `pipeCount` distributes over append. -/
theorem pipeCount_append (a b : List Activation) :
    pipeCount (a ++ b) = pipeCount a + pipeCount b := by
  simp [pipeCount, List.countP_append]

/-- Helper: an optional activation holds at most one pipeline. -/
theorem pipeCount_opt_le (o : Option Activation) : pipeCount o.toList ≤ 1 := by
  cases o with
  | none => simp [pipeCount]
  | some a => simp [pipeCount, List.countP_cons]; split <;> simp

/-- Helper: decompose an activation list around a valid index. -/
theorem acts_decomp (l : List Activation) (i : Nat) (a : Activation)
    (h : l[i]? = some a) : l = l.take i ++ a :: l.drop (i + 1) := by
  have hi : i < l.length := by
    by_contra hge
    push_neg at hge
    rw [List.getElem?_eq_none hge] at h
    cases h
  conv_lhs => rw [← List.take_append_drop i l]
  congr 1
  rw [List.drop_eq_getElem_cons hi]
  have hv := List.getElem?_eq_getElem hi
  rw [hv] at h
  cases h
  rfl

/-- Helper: entering `speakSession` from an idle state (not speaking, no
pending request) leaves the pending slot empty and takes the pipeline
exactly when it spawns a pipeline activation. -/
theorem speakEntry_calm (env : Env) (st : PluginState) (req : SpeakReq)
    (h1 : st.speaking = false) (h2 : st.pendingSpeak = none) :
    (speakEntry env st req).1.pendingSpeak = none ∧
    ((speakEntry env st req).1.speaking = true ↔
      pipeCount (speakEntry env st req).2.1.toList = 1) := by
  rw [speakEntry]
  split_ifs with ha hb hc hd
  · exact ⟨h2, by simp [h1, pipeCount]⟩
  · exact absurd hb (by simp [h1])
  · exact ⟨h2, by simp [h1, pipeCount, isPipeline, List.countP_cons]⟩
  · exact ⟨h2, by simp [h1, pipeCount, isPipeline, List.countP_cons]⟩
  · exact ⟨h2, by simp [pipeCount, isPipeline, List.countP_cons]⟩

/-- Helper: the `finally` block always clears the pending slot and holds
`speaking` exactly when it re-entered and spawned a new pipeline. -/
theorem finalizeSpeak_spec (env : Env) (st : PluginState) :
    (finalizeSpeak env st).1.pendingSpeak = none ∧
    ((finalizeSpeak env st).1.speaking = true ↔
      pipeCount (finalizeSpeak env st).2.1.toList = 1) ∧
    pipeCount (finalizeSpeak env st).2.1.toList ≤ 1 := by
  rw [finalizeSpeak]
  cases hp : st.pendingSpeak with
  | none => exact ⟨rfl, by simp [pipeCount], by simp [pipeCount]⟩
  | some req =>
    have hcalm := speakEntry_calm env { st with speaking := false, pendingSpeak := none }
      req rfl rfl
    exact ⟨hcalm.1, hcalm.2, pipeCount_opt_le _⟩

/-- Helper: a resume step either continues (state untouched, pipeline count
preserved) or completes through the `finally` block. -/
theorem resumeAct_cases (env : Env) (st : PluginState) (a : Activation) (w : World) :
    ((resumeAct env st a w).1 = st ∧
      pipeCount (resumeAct env st a w).2.1 = pipeCount [a]) ∨
    (isPipeline a = true ∧
      (resumeAct env st a w).1.pendingSpeak = none ∧
      ((resumeAct env st a w).1.speaking = true ↔
        pipeCount (resumeAct env st a w).2.1 = 1) ∧
      pipeCount (resumeAct env st a w).2.1 ≤ 1) := by
  cases a with
  | preToast req b => exact Or.inl ⟨rfl, rfl⟩
  | pipeline req v m o ph =>
    cases ph with
    | fetching =>
      rw [resumeAct]
      cases hg : getLatestAssistant st.config.maxChars w.messages with
      | none =>
        refine Or.inr ⟨rfl, ?_⟩
        have hs := finalizeSpeak_spec env st
        exact ⟨hs.1, hs.2.1, hs.2.2⟩
      | some L =>
        dsimp only
        split_ifs with hdup htr
        · refine Or.inr ⟨rfl, ?_⟩
          have hs := finalizeSpeak_spec env st
          exact ⟨hs.1, hs.2.1, hs.2.2⟩
        · exact Or.inl ⟨rfl, rfl⟩
        · exact Or.inl ⟨rfl, rfl⟩
    | toastTruncated L => exact Or.inl ⟨rfl, rfl⟩
    | awaitingTts L =>
      rw [resumeAct]
      split_ifs
      · exact Or.inl ⟨rfl, rfl⟩
      · exact Or.inl ⟨rfl, rfl⟩
    | awaitingPlay L =>
      rw [resumeAct]
      split_ifs with hp
      · refine Or.inr ⟨rfl, ?_⟩
        have hs := finalizeSpeak_spec env
          { st with lastSpoken := mapSet st.lastSpoken req.sessionID L.messageID }
        exact ⟨hs.1, hs.2.1, hs.2.2⟩
      · exact Or.inl ⟨rfl, rfl⟩
    | toastError =>
      refine Or.inr ⟨rfl, ?_⟩
      have hs := finalizeSpeak_spec env st
      exact ⟨hs.1, hs.2.1, hs.2.2⟩

/-- Helper: resuming any activation preserves the arbitrator invariant. -/
theorem inv_stepResume (env : Env) (c : Config) (i : Nat) (w : World) (h : Inv c) :
    Inv (stepResume env c i w).1 := by
  rw [stepResume]
  cases hg : c.acts[i]? with
  | none => exact h
  | some a =>
    dsimp only
    obtain ⟨h1, h2, h3⟩ := h
    have hsplit : pipeCount c.acts
        = pipeCount (c.acts.take i) + pipeCount [a] + pipeCount (c.acts.drop (i + 1)) := by
      conv_lhs => rw [acts_decomp c.acts i a hg]
      rw [show (a : Activation) :: c.acts.drop (i + 1)
          = [a] ++ c.acts.drop (i + 1) from rfl]
      rw [pipeCount_append, pipeCount_append]
      omega
    have hnew : pipeCount (c.acts.take i ++ (resumeAct env c.st a w).2.1
        ++ c.acts.drop (i + 1))
        = pipeCount (c.acts.take i) + pipeCount (resumeAct env c.st a w).2.1
          + pipeCount (c.acts.drop (i + 1)) := by
      rw [pipeCount_append, pipeCount_append]
    obtain ⟨hA1, hA2⟩ | ⟨hBp, hB1, hB2, hB3⟩ := resumeAct_cases env c.st a w
    · refine ⟨?_, ?_, ?_⟩
      · rw [hA1, hnew, hA2]
        rw [hsplit] at h1
        exact h1
      · rw [hnew, hA2]
        rw [hsplit] at h2
        exact h2
      · rw [hA1]
        exact h3
    · have ha1 : pipeCount [a] = 1 := by simp [pipeCount, List.countP_cons, hBp]
      have hTD : pipeCount (c.acts.take i) = 0 ∧ pipeCount (c.acts.drop (i + 1)) = 0 := by
        rw [hsplit, ha1] at h2
        omega
      refine ⟨?_, ?_, ?_⟩
      · rw [hnew, hTD.1, hTD.2]
        simpa using hB2
      · rw [hnew, hTD.1, hTD.2]
        simpa using hB3
      · rw [hB1]
        simp

/-- Helper: the invariant only depends on `speaking`, the pending slot and
the activation list. -/
theorem inv_of_fields (c c' : Config) (h : Inv c) (hs : c'.st.speaking = c.st.speaking)
    (hp : c'.st.pendingSpeak = c.st.pendingSpeak) (ha : c'.acts = c.acts) : Inv c' := by
  rw [Inv, hs, hp, ha]
  exact h

/-- Helper: toggling never touches `speaking` or the pending slot. -/
theorem handleToggle_preserves (st : PluginState) (t : ToggleCmd) :
    (handleToggle st t).1.speaking = st.speaking ∧
    (handleToggle st t).1.pendingSpeak = st.pendingSpeak := by
  rw [handleToggle.eq_def]
  cases st.lastSessionID <;> exact ⟨rfl, rfl⟩

/-- Helper: a config reload never touches `speaking` or the pending slot. -/
theorem reloadApply_preserves (st : PluginState) (ann : Bool)
    (loaded : Except String (VoiceConfig × ConfigSource)) :
    (reloadApply st ann loaded).1.speaking = st.speaking ∧
    (reloadApply st ann loaded).1.pendingSpeak = st.pendingSpeak := by
  rw [reloadApply.eq_def]
  cases loaded <;> exact ⟨rfl, rfl⟩

/-- Helper: a single pipeline activation counts as one pipeline. -/
theorem pipeCount_pipeline (req : SpeakReq) (v m o : String) (ph : PipePhase) :
    pipeCount [Activation.pipeline req v m o ph] = 1 := rfl

/-- Helper: the entry segment of `speakSession` preserves the invariant. -/
theorem inv_applyEntry (env : Env) (c : Config) (req : SpeakReq) (h : Inv c) :
    Inv (applyEntry env c req).1 := by
  obtain ⟨h1, h2, h3⟩ := h
  rw [applyEntry, speakEntry]
  split_ifs with ha hb hc hd
  · exact ⟨by simpa [pipeCount_append, pipeCount] using h1,
      by simpa [pipeCount_append, pipeCount] using h2,
      h3⟩
  · refine ⟨by simpa [pipeCount_append, pipeCount] using h1,
      by simpa [pipeCount_append, pipeCount] using h2,
      fun _ => hb⟩
  · exact ⟨by simpa [pipeCount_append, pipeCount, isPipeline, List.countP_cons] using h1,
      by simpa [pipeCount_append, pipeCount, isPipeline, List.countP_cons] using h2,
      h3⟩
  · exact ⟨by simpa [pipeCount_append, pipeCount, isPipeline, List.countP_cons] using h1,
      by simpa [pipeCount_append, pipeCount, isPipeline, List.countP_cons] using h2,
      h3⟩
  · have hz : pipeCount c.acts = 0 := by
      rcases Nat.lt_or_ge (pipeCount c.acts) 1 with hlt | hge
      · omega
      · exfalso
        have : pipeCount c.acts = 1 := by omega
        exact hb (h1.2 this)
    refine ⟨?_, ?_, fun _ => rfl⟩
    · simp [pipeCount_append, pipeCount_pipeline, hz]
    · simp [pipeCount_append, pipeCount_pipeline, hz]

/-- Helper: every host command preserves the arbitrator invariant. -/
theorem inv_stepCmd (env : Env) (c : Config) (cmd : Cmd) (h : Inv c) :
    Inv (stepCmd env c cmd).1 := by
  cases cmd with
  | sessionIdle sid =>
    rw [stepCmd]
    split
    · exact inv_applyEntry env _ _ (inv_of_fields c _ h rfl rfl rfl)
    · exact inv_of_fields c _ h rfl rfl rfl
  | messageUpdated sid => exact inv_of_fields c _ h rfl rfl rfl
  | voiceSpeak =>
    rw [stepCmd]
    cases hls : c.st.lastSessionID with
    | none => exact h
    | some sid => exact inv_applyEntry env _ _ h
  | toggle t =>
    have hp := handleToggle_preserves c.st t
    exact inv_of_fields c _ h hp.1 hp.2 rfl
  | setMode m => exact inv_of_fields c _ h rfl rfl rfl
  | reload ann loaded =>
    have hp := reloadApply_preserves c.st ann loaded
    exact inv_of_fields c _ h hp.1 hp.2 rfl
  | sessionDeleted sid => exact inv_of_fields c _ h rfl rfl rfl
  | resume i w => exact inv_stepResume env c i w h

/-- Helper: the invariant is preserved along any command sequence. -/
theorem inv_execSteps (env : Env) (cmds : List Cmd) :
    ∀ (c : Config), Inv c → Inv (execSteps env c cmds) := by
  induction cmds with
  | nil => intro c h; exact h
  | cons cmd rest ih =>
    intro c h
    exact ih (stepCmd env c cmd).1 (inv_stepCmd env c cmd h)

/-- Helper: every reachable configuration satisfies the arbitrator invariant. -/
theorem reach_inv (env : Env) (c : Config) (h : Reach env c) : Inv c := by
  obtain ⟨st0, cmds, ⟨hs, hp⟩, hrun⟩ := h
  have h0 : Inv ⟨st0, []⟩ := by
    refine ⟨?_, ?_, ?_⟩ <;> simp [pipeCount, hs, hp]
  rw [← hrun]
  exact inv_execSteps env cmds _ h0

/-- Helper: activation ranks sum over append. -/
theorem ranksOf_append (l1 l2 : List Activation) :
    ranksOf (l1 ++ l2) = ranksOf l1 + ranksOf l2 := by
  simp [ranksOf]

/-- Helper: the `finally` block spawns at most one activation of rank at most
five, clears the pending slot, and spawns nothing when the slot was empty. -/
theorem finalize_ranks (env : Env) (st : PluginState) :
    ranksOf (finalizeSpeak env st).2.1.toList ≤ 5 ∧
    (finalizeSpeak env st).1.pendingSpeak = none ∧
    (st.pendingSpeak = none → (finalizeSpeak env st).2.1 = none) := by
  rw [finalizeSpeak]
  cases hp : st.pendingSpeak with
  | none => exact ⟨by simp [ranksOf], rfl, fun _ => rfl⟩
  | some req =>
    dsimp only
    refine ⟨?_, (speakEntry_calm env _ req rfl rfl).1,
      fun hc => (Option.some_ne_none req hc).elim⟩
    rw [speakEntry]
    split_ifs <;> simp [ranksOf, actRank, phaseRank]

/-- Helper: completing a pipeline through the `finally` block strictly
decreases the drain measure below the rank-1 bound. -/
theorem measure_fin (env : Env) (st : PluginState) (rest : List Activation) :
    arbMeasure ⟨(finalizeSpeak env st).1, [] ++ (finalizeSpeak env st).2.1.toList ++ rest⟩
      < 1 + ranksOf rest + (if st.pendingSpeak.isSome then 10 else 0) := by
  obtain ⟨h5, hpn, hnone⟩ := finalize_ranks env st
  rw [arbMeasure]
  dsimp only
  rw [hpn]
  cases hp : st.pendingSpeak with
  | none =>
    rw [hnone hp]
    simp [ranksOf_append, ranksOf]
  | some req =>
    simp [ranksOf_append]
    omega

/-- Helper: resuming the first activation with the aborting world strictly
decreases the drain measure. -/
theorem arbMeasure_resume_zero (env : Env) (c : Config) (hne : c.acts ≠ []) :
    arbMeasure (stepCmd env c (.resume 0 quietWorld)).1 < arbMeasure c := by
  obtain ⟨st, acts⟩ := c
  cases acts with
  | nil => exact absurd rfl hne
  | cons a rest =>
    show arbMeasure (stepResume env ⟨st, a :: rest⟩ 0 quietWorld).1 < _
    rw [stepResume]
    simp only [List.getElem?_cons_zero]
    cases a with
    | preToast req b =>
      simp [resumeAct, arbMeasure, ranksOf, actRank]
    | pipeline req v m o ph =>
      cases ph with
      | fetching =>
        rw [resumeAct]
        rw [show getLatestAssistant st.config.maxChars quietWorld.messages = none from rfl]
        calc arbMeasure ⟨(finalizeSpeak env st).1,
            [] ++ (finalizeSpeak env st).2.1.toList ++ rest⟩
            < 1 + ranksOf rest + (if st.pendingSpeak.isSome then 10 else 0) :=
              measure_fin env st rest
          _ ≤ arbMeasure ⟨st, .pipeline req v m o .fetching :: rest⟩ := by
              simp [arbMeasure, ranksOf, actRank, phaseRank]
      | toastTruncated L =>
        simp [resumeAct, arbMeasure, ranksOf, actRank, phaseRank]
      | awaitingTts L =>
        rw [resumeAct]
        rw [show quietWorld.ttsOk = false from rfl]
        simp [arbMeasure, ranksOf, actRank, phaseRank]
      | awaitingPlay L =>
        rw [resumeAct]
        rw [show quietWorld.playOk = false from rfl]
        simp [arbMeasure, ranksOf, actRank, phaseRank]
      | toastError =>
        rw [resumeAct]
        calc arbMeasure ⟨(finalizeSpeak env st).1,
            [] ++ (finalizeSpeak env st).2.1.toList ++ rest⟩
            < 1 + ranksOf rest + (if st.pendingSpeak.isSome then 10 else 0) :=
              measure_fin env st rest
          _ ≤ arbMeasure ⟨st, .pipeline req v m o .toastError :: rest⟩ := by
              simp [arbMeasure, ranksOf, actRank, phaseRank]

/-- Helper: from any configuration satisfying the invariant, a finite
sequence of resume steps empties the machine (no activations, not
speaking, no pending request). -/
theorem drain_all (env : Env) : ∀ (n : Nat) (c : Config), arbMeasure c ≤ n → Inv c →
    ∃ cmds : List Cmd, (∀ x ∈ cmds, ∃ i w, x = Cmd.resume i w) ∧
      (execSteps env c cmds).acts = [] ∧
      (execSteps env c cmds).st.speaking = false ∧
      (execSteps env c cmds).st.pendingSpeak = none := by
  have base : ∀ (c : Config), c.acts = [] → Inv c →
      ∃ cmds : List Cmd, (∀ x ∈ cmds, ∃ i w, x = Cmd.resume i w) ∧
        (execSteps env c cmds).acts = [] ∧
        (execSteps env c cmds).st.speaking = false ∧
        (execSteps env c cmds).st.pendingSpeak = none := by
    intro c hnil hinv
    have hsp : c.st.speaking = false := by
      have h1 := hinv.1
      rw [hnil] at h1
      simp [pipeCount] at h1
      exact h1
    have hpd : c.st.pendingSpeak = none := by
      have h3 := hinv.2.2
      cases hps : c.st.pendingSpeak with
      | none => rfl
      | some req =>
        have := h3 (by rw [hps]; rfl)
        rw [this] at hsp
        cases hsp
    exact ⟨[], by simp, hnil, hsp, hpd⟩
  intro n
  induction n with
  | zero =>
    intro c hm hinv
    have hnil : c.acts = [] := by
      cases hacts : c.acts with
      | nil => rfl
      | cons a rest =>
        exfalso
        have : 1 ≤ arbMeasure c := by
          rw [arbMeasure, hacts]
          have ha : 1 ≤ actRank a := by
            cases a with
            | preToast req b => exact le_refl 1
            | pipeline req v m o ph => cases ph <;> simp [actRank, phaseRank]
          simp [ranksOf]
          omega
        omega
    exact base c hnil hinv
  | succ n ih =>
    intro c hm hinv
    cases hacts : c.acts with
    | nil => exact base c hacts hinv
    | cons a rest =>
      have hne : c.acts ≠ [] := by rw [hacts]; simp
      have hlt := arbMeasure_resume_zero env c hne
      obtain ⟨cmds, hres, h1, h2, h3⟩ :=
        ih (stepCmd env c (.resume 0 quietWorld)).1 (by omega)
          (inv_stepCmd env c _ hinv)
      refine ⟨Cmd.resume 0 quietWorld :: cmds, ?_, h1, h2, h3⟩
      intro x hx
      rcases List.mem_cons.1 hx with hx | hx
      · exact ⟨0, quietWorld, hx⟩
      · exact hres x hx

/-- Helper: with the global enabled flag off, `speakSession` returns
immediately with no effect, no activation and no action. -/
theorem speakEntry_disabled (env : Env) (st : PluginState) (req : SpeakReq)
    (he : st.config.enabled = false) : speakEntry env st req = (st, none, []) := by
  rw [speakEntry, if_pos (by simp [isEnabledForSession, he])]

/-- C1: at every reachable configuration at most one speak pipeline (TTS
request plus playback) is in flight, and `state.speaking` holds exactly
when one is; a request arriving while a pipeline is in flight is stored
in the pending slot (never dropped); and when a pipeline completes with a
populated pending slot, the `finally` block re-invokes the speak
procedure with exactly the pending request. -/
theorem c1_single_flight :
    (∀ (env : Env) (c : Config), Reach env c →
      pipeCount c.acts ≤ 1 ∧ (c.st.speaking = true ↔ pipeCount c.acts = 1)) ∧
    (∀ (env : Env) (st : PluginState) (req : SpeakReq),
      isEnabledForSession st req.sessionID = true → st.speaking = true →
      speakEntry env st req = ({ st with pendingSpeak := some req }, none, [])) ∧
    (∀ (env : Env) (st : PluginState) (req : SpeakReq), st.pendingSpeak = some req →
      finalizeSpeak env st
        = speakEntry env { st with speaking := false, pendingSpeak := none } req) := by
  refine ⟨?_, ?_, ?_⟩
  · intro env c h
    have hi := reach_inv env c h
    exact ⟨hi.2.1, hi.1⟩
  · intro env st req hen hsp
    rw [speakEntry, if_neg (by simp [hen]), if_pos hsp]
  · intro env st req hp
    rw [finalizeSpeak, hp]

/-- C1 witness: a request arriving at a concrete speaking state is stored in
the pending slot. -/
theorem c1_single_flight_witness :
    speakEntry wEnv wSpeakingState ⟨"s2", .manual⟩
      = ({ wSpeakingState with pendingSpeak := some ⟨"s2", .manual⟩ }, none, []) :=
  c1_single_flight.2.1 wEnv wSpeakingState ⟨"s2", .manual⟩ (by decide) rfl

/-- C2: at every reachable configuration the pending slot is populated only
while speaking (so the state is exactly Idle, Speaking, or
Speaking-with-pending, the slot holding at most one request by
construction), at most one pipeline is in flight, and a request arriving
while Speaking overwrites whatever request was queued -- last-writer-wins,
for the same or a different session. -/
theorem c2_arbitrator_states :
    (∀ (env : Env) (c : Config), Reach env c →
      c.st.pendingSpeak.isSome = true → c.st.speaking = true) ∧
    (∀ (env : Env) (c : Config), Reach env c → pipeCount c.acts ≤ 1) ∧
    (∀ (env : Env) (st : PluginState) (req req0 : SpeakReq),
      isEnabledForSession st req.sessionID = true → st.speaking = true →
      st.pendingSpeak = some req0 →
      (speakEntry env st req).1.pendingSpeak = some req) := by
  refine ⟨?_, ?_, ?_⟩
  · intro env c h
    exact (reach_inv env c h).2.2
  · intro env c h
    exact (reach_inv env c h).2.1
  · intro env st req req0 hen hsp hp0
    rw [speakEntry, if_neg (by simp [hen]), if_pos hsp]

/-- C2 witness: overwriting a concrete queued request. -/
theorem c2_arbitrator_states_witness :
    (speakEntry wEnv wPendingState ⟨"s2", .manual⟩).1.pendingSpeak
      = some ⟨"s2", .manual⟩ :=
  c2_arbitrator_states.2.2 wEnv wPendingState ⟨"s2", .manual⟩ ⟨"s1", .idle⟩
    (by decide) rfl rfl

/-- C3: the `finally` block runs after every pipeline outcome and always
clears the pending slot -- re-invoking the speak procedure with the
pending request when the slot was populated and transitioning to Idle
otherwise; configuration-error aborts hold no pipeline and change no
state; and from every reachable configuration a finite sequence of
resume steps leaves the arbitrator Idle with an empty pending slot
(nothing is ever stuck in Speaking or left unprocessed). -/
theorem c3_completion_drains :
    (∀ (env : Env) (st : PluginState), (finalizeSpeak env st).1.pendingSpeak = none) ∧
    (∀ (env : Env) (st : PluginState) (req : SpeakReq), st.pendingSpeak = some req →
      finalizeSpeak env st
        = speakEntry env { st with speaking := false, pendingSpeak := none } req) ∧
    (∀ (env : Env) (st : PluginState), st.pendingSpeak = none →
      finalizeSpeak env st = ({ st with speaking := false }, none, [])) ∧
    (∀ (env : Env) (st : PluginState) (req : SpeakReq) (b : Bool) (w : World),
      resumeAct env st (.preToast req b) w = (st, [], [])) ∧
    (∀ (env : Env) (c : Config), Reach env c →
      ∃ cmds : List Cmd, (∀ x ∈ cmds, ∃ i w, x = Cmd.resume i w) ∧
        (execSteps env c cmds).acts = [] ∧
        (execSteps env c cmds).st.speaking = false ∧
        (execSteps env c cmds).st.pendingSpeak = none) := by
  refine ⟨?_, ?_, ?_, ?_, ?_⟩
  · intro env st
    exact (finalizeSpeak_spec env st).1
  · intro env st req hp
    rw [finalizeSpeak, hp]
  · intro env st hp
    rw [finalizeSpeak, hp]
  · intro env st req b w
    rfl
  · intro env c h
    exact drain_all env (arbMeasure c) c le_rfl (reach_inv env c h)

/-- C3 witness: the drain property instantiated at a concrete reachable
configuration. -/
theorem c3_completion_drains_witness :
    ∃ cmds : List Cmd, (∀ x ∈ cmds, ∃ i w, x = Cmd.resume i w) ∧
      (execSteps wEnv ⟨wState, []⟩ cmds).acts = [] ∧
      (execSteps wEnv ⟨wState, []⟩ cmds).st.speaking = false ∧
      (execSteps wEnv ⟨wState, []⟩ cmds).st.pendingSpeak = none :=
  c3_completion_drains.2.2.2.2 wEnv ⟨wState, []⟩ ⟨wState, [], ⟨rfl, rfl⟩, rfl⟩

/-- Helper: while the global flag is off (and only off-keeping commands are
delivered) every step keeps the machine empty and emits no TTS call. -/
theorem disabled_step (env : Env) (c : Config) (cmd : Cmd)
    (he : c.st.config.enabled = false) (hsp : c.st.speaking = false)
    (hpd : c.st.pendingSpeak = none) (hacts : c.acts = [])
    (hk : keepsDisabled cmd = true) :
    (stepCmd env c cmd).1.st.config.enabled = false ∧
    (stepCmd env c cmd).1.st.speaking = false ∧
    (stepCmd env c cmd).1.st.pendingSpeak = none ∧
    (stepCmd env c cmd).1.acts = [] ∧
    countTts (stepCmd env c cmd).2 = 0 := by
  cases cmd with
  | sessionIdle sid =>
    rw [stepCmd]
    split
    · have hd := speakEntry_disabled env
        ({ c.st with lastSessionID := some sid } : PluginState) ⟨sid, .idle⟩ he
      rw [applyEntry]
      dsimp only
      rw [hd]
      exact ⟨he, hsp, hpd, by simp [hacts], rfl⟩
    · exact ⟨he, hsp, hpd, hacts, rfl⟩
  | messageUpdated sid => exact ⟨he, hsp, hpd, hacts, rfl⟩
  | voiceSpeak =>
    rw [stepCmd]
    cases hls : c.st.lastSessionID with
    | none => exact ⟨he, hsp, hpd, hacts, rfl⟩
    | some sid =>
      have hd := speakEntry_disabled env c.st ⟨sid, .manual⟩ he
      dsimp only
      rw [applyEntry, hd]
      exact ⟨he, hsp, hpd, by simp [hacts], rfl⟩
  | toggle t =>
    cases t with
    | tOn => cases hk
    | tToggle => cases hk
    | tOff =>
      rw [stepCmd, handleToggle.eq_def]
      cases hls : c.st.lastSessionID with
      | none => exact ⟨rfl, hsp, hpd, hacts, rfl⟩
      | some sid => exact ⟨he, hsp, hpd, hacts, rfl⟩
  | setMode m => exact ⟨he, hsp, hpd, hacts, rfl⟩
  | reload ann loaded =>
    cases loaded with
    | error e => exact ⟨he, hsp, hpd, hacts, rfl⟩
    | ok p =>
      have hen : p.1.enabled = some false := by
        have hkk := hk
        rw [keepsDisabled] at hkk
        exact eq_of_beq hkk
      rw [stepCmd, reloadApply.eq_def]
      refine ⟨?_, hsp, hpd, hacts, ?_⟩
      · simp [defaultConfig, hen]
      · rw [countTts, List.countP_append]
        have z1 : ∀ b : Bool, List.countP isTtsAction
            (if b then [Action.toast (.configLoaded p.2 (defaultConfig p.1).mode
              (defaultConfig p.1).enabled)] else []) = 0 := by
          intro b; cases b <;> rfl
        have z2 : ∀ b : Bool, List.countP isTtsAction
            (if b then [Action.toast .formatWarn] else []) = 0 := by
          intro b; cases b <;> rfl
        rw [z1, z2]
  | sessionDeleted sid => exact ⟨he, hsp, hpd, hacts, rfl⟩
  | resume i w =>
    rw [stepCmd, stepResume, hacts]
    rw [show ([] : List Activation)[i]? = none from by simp]
    exact ⟨he, hsp, hpd, hacts, rfl⟩

/-- C4: with the global enabled flag off, `requestSpeak` is a complete no-op
(including for requests drained from the pending slot, which re-enter
through the same function), and no run of host commands that keeps the
flag off ever emits a TTS call, regardless of mode and reason. -/
theorem c4_disabled_no_tts :
    (∀ (env : Env) (st : PluginState) (req : SpeakReq), st.config.enabled = false →
      speakEntry env st req = (st, none, [])) ∧
    (∀ (env : Env) (st0 : PluginState) (cmds : List Cmd),
      st0.speaking = false → st0.pendingSpeak = none → st0.config.enabled = false →
      (∀ x ∈ cmds, keepsDisabled x = true) →
      countTts (runSteps env ⟨st0, []⟩ cmds).2 = 0) := by
  refine ⟨speakEntry_disabled, ?_⟩
  intro env st0 cmds h1 h2 h3 hall
  suffices h : ∀ (cmds2 : List Cmd) (c : Config), c.st.config.enabled = false →
      c.st.speaking = false → c.st.pendingSpeak = none → c.acts = [] →
      (∀ x ∈ cmds2, keepsDisabled x = true) →
      countTts (runSteps env c cmds2).2 = 0 by
    exact h cmds ⟨st0, []⟩ h3 h1 h2 rfl hall
  intro cmds2
  induction cmds2 with
  | nil => intro c _ _ _ _ _; rfl
  | cons cmd rest ih =>
    intro c he hsp hpd hacts hall2
    have hstep := disabled_step env c cmd he hsp hpd hacts (hall2 cmd (by simp))
    have hrest := ih (stepCmd env c cmd).1 hstep.1 hstep.2.1 hstep.2.2.1 hstep.2.2.2.1
      (fun x hx => hall2 x (by simp [hx]))
    show countTts ((stepCmd env c cmd).2 ++ (runSteps env (stepCmd env c cmd).1 rest).2) = 0
    rw [countTts, List.countP_append]
    rw [countTts] at hrest
    have h5 := hstep.2.2.2.2
    rw [countTts] at h5
    omega

/-- C4 witness: a concrete disabled run with idle, resume, manual-speak and
toggle-off commands emits no TTS call. -/
theorem c4_disabled_no_tts_witness :
    countTts (runSteps wEnv ⟨wDisabledState, []⟩
      [.sessionIdle "s1", .resume 0 wWorld, .voiceSpeak, .toggle .tOff,
       .sessionIdle "s1"]).2 = 0 :=
  c4_disabled_no_tts.2 wEnv wDisabledState
    [.sessionIdle "s1", .resume 0 wWorld, .voiceSpeak, .toggle .tOff, .sessionIdle "s1"]
    rfl rfl rfl (by decide)

/-- Helper: reading a key just written returns the written value. -/
theorem mapGet_mapSet_self (ml : List (String × String)) (k v : String) :
    mapGet (mapSet ml k v) k = some v := by
  induction ml with
  | nil => simp [mapSet, mapGet]
  | cons p rest ih =>
    obtain ⟨pk, pv⟩ := p
    rw [mapSet]
    by_cases hk : pk = k
    · rw [if_pos hk, mapGet, if_pos rfl]
    · rw [if_neg hk, mapGet, if_neg hk, ih]

/-- Helper: running no commands changes nothing. -/
theorem runSteps_nil (env : Env) (c : Config) : runSteps env c [] = (c, []) := rfl

/-- Helper: unfold one command of a run given its step equation. -/
theorem runSteps_step (env : Env) (c c1 : Config) (as1 : List Action) (cmd : Cmd)
    (rest : List Cmd) (h : stepCmd env c cmd = (c1, as1)) :
    runSteps env c (cmd :: rest)
      = ((runSteps env c1 rest).1, as1 ++ (runSteps env c1 rest).2) := by
  rw [show runSteps env c (cmd :: rest)
      = ((runSteps env (stepCmd env c cmd).1 rest).1,
         (stepCmd env c cmd).2 ++ (runSteps env (stepCmd env c cmd).1 rest).2) from rfl]
  rw [h]

/-- Helper: a resume command is exactly `stepResume`. -/
theorem stepCmd_resume (env : Env) (c : Config) (i : Nat) (w : World) :
    stepCmd env c (.resume i w) = stepResume env c i w := rfl

/-- Helper: resuming the only in-flight activation. -/
theorem stepResume_single (env : Env) (st2 : PluginState) (a : Activation) (w : World) :
    stepResume env ⟨st2, [a]⟩ 0 w
      = (⟨(resumeAct env st2 a w).1, (resumeAct env st2 a w).2.1⟩,
         (resumeAct env st2 a w).2.2) := by
  rw [stepResume]
  simp

/-- Helper: a `session.idle` event in continuous mode records the session and
enters `speakSession`. -/
theorem sessionIdle_step (env : Env) (st2 st3 : PluginState) (acts : List Activation)
    (sid : String) (hmode : st2.config.mode = .continuous)
    (hst3 : st3 = { st2 with lastSessionID := some sid }) :
    stepCmd env ⟨st2, acts⟩ (.sessionIdle sid)
      = applyEntry env ⟨st3, acts⟩ ⟨sid, .idle⟩ := by
  rw [stepCmd, hst3]
  rw [if_pos hmode]

/-- Helper: unfold `applyEntry` given the entry segment's result. -/
theorem applyEntry_eq (env : Env) (st2 : PluginState) (acts : List Activation)
    (req : SpeakReq) (st' : PluginState) (aOpt : Option Activation) (as : List Action)
    (h : speakEntry env st2 req = (st', aOpt, as)) :
    applyEntry env ⟨st2, acts⟩ req = (⟨st', acts ++ aOpt.toList⟩, as) := by
  rw [applyEntry]
  rw [show ((⟨st2, acts⟩ : Config)).st = st2 from rfl]
  rw [h]

/-- Helper: the entry segment of `speakSession` from an idle enabled state
with credentials takes the pipeline and parks on the message fetch. -/
theorem entry_start (env : Env) (st2 : PluginState) (req : SpeakReq)
    (hen : isEnabledForSession st2 req.sessionID = true)
    (hsp : st2.speaking = false)
    (hkey : ¬ env.apiKey.getD "" = "")
    (hvid : ¬ st2.config.voiceId.getD "" = "") :
    speakEntry env st2 req
      = ({ st2 with speaking := true },
         some (.pipeline req (st2.config.voiceId.getD "") (resolvedModel st2.config)
           (audioFormatFor (some st2.config.outputFormat)).outputFormat .fetching),
         []) := by
  rw [speakEntry, if_neg (by simp [hen]), if_neg (by simp [hsp]), if_neg hkey, if_neg hvid]

/-- Helper: the `finally` block with an empty pending slot just clears
`speaking`. -/
theorem finalize_idle (env : Env) (st2 : PluginState) (hp : st2.pendingSpeak = none) :
    finalizeSpeak env st2 = ({ st2 with speaking := false }, none, []) := by
  rw [finalizeSpeak, hp]

/-- Helper: the fetch resume with a fresh (or manual) eligible message starts
the TTS call. -/
theorem fetch_to_tts (env : Env) (st2 : PluginState) (sid2 : String) (r : Reason)
    (v m o : String) (w : World) (L : LatestMsg)
    (hL : getLatestAssistant st2.config.maxChars w.messages = some L)
    (hnd : ¬ (r = .idle ∧ mapGet st2.lastSpoken sid2 = some L.messageID))
    (htr : L.truncated = false) :
    resumeAct env st2 (.pipeline ⟨sid2, r⟩ v m o .fetching) w
      = (st2, [.pipeline ⟨sid2, r⟩ v m o (.awaitingTts L)],
         [.ttsCall sid2 L.text v m o]) := by
  rw [resumeAct, hL]
  dsimp only
  rw [if_neg hnd, if_neg (by simp [htr])]

/-- Helper: the fetch resume with an idle-duplicate message aborts silently
and returns to idle. -/
theorem fetch_dup (env : Env) (st2 : PluginState) (sid2 : String) (r : Reason)
    (v m o : String) (w : World) (L : LatestMsg)
    (hL : getLatestAssistant st2.config.maxChars w.messages = some L)
    (hdup : r = .idle ∧ mapGet st2.lastSpoken sid2 = some L.messageID)
    (hpd2 : st2.pendingSpeak = none) :
    resumeAct env st2 (.pipeline ⟨sid2, r⟩ v m o .fetching) w
      = ({ st2 with speaking := false }, [], []) := by
  rw [resumeAct, hL]
  dsimp only
  rw [if_pos hdup]
  rw [finalize_idle env st2 hpd2]
  rfl

/-- Helper: a successful TTS resume starts playback. -/
theorem tts_ok_step (env : Env) (st2 : PluginState) (sid2 : String) (r : Reason)
    (v m o : String) (L : LatestMsg) (w : World) (htts : w.ttsOk = true) :
    resumeAct env st2 (.pipeline ⟨sid2, r⟩ v m o (.awaitingTts L)) w
      = (st2, [.pipeline ⟨sid2, r⟩ v m o (.awaitingPlay L)], [.playbackStart sid2]) := by
  rw [resumeAct, if_pos htts]

/-- Helper: a successful playback resume records the spoken message and
returns to idle (empty pending slot). -/
theorem play_ok_step (env : Env) (st2 : PluginState) (sid2 : String) (r : Reason)
    (v m o : String) (L : LatestMsg) (w : World) (hplay : w.playOk = true)
    (hpd2 : st2.pendingSpeak = none) :
    resumeAct env st2 (.pipeline ⟨sid2, r⟩ v m o (.awaitingPlay L)) w
      = ({ st2 with speaking := false, lastSpoken := mapSet st2.lastSpoken sid2 L.messageID }, [], []) := by
  rw [resumeAct, if_pos hplay]
  dsimp only
  rw [finalize_idle env { st2 with lastSpoken := mapSet st2.lastSpoken sid2 L.messageID } hpd2]
  rfl

/-- C5: two idle-triggered requests for the same session with no new eligible
assistant message in between make exactly one TTS call (the second aborts
on the stored last-spoken id), while an idle request followed by a manual
speak makes two -- manual requests bypass duplicate suppression. -/
theorem c5_duplicate_suppression (env : Env) (st : PluginState)
    (msgs : List MessageWithParts) (L : LatestMsg) (sid : String)
    (hmode : st.config.mode = .continuous)
    (hkey : ¬ env.apiKey.getD "" = "")
    (hvid : ¬ st.config.voiceId.getD "" = "")
    (hen : isEnabledForSession st sid = true)
    (hsp : st.speaking = false) (hpd : st.pendingSpeak = none)
    (hL : getLatestAssistant st.config.maxChars msgs = some L)
    (htr : L.truncated = false)
    (hnew : ¬ mapGet st.lastSpoken sid = some L.messageID) :
    countTts (runSteps env ⟨st, []⟩
      [.sessionIdle sid, .resume 0 ⟨msgs, true, true⟩, .resume 0 ⟨msgs, true, true⟩,
       .resume 0 ⟨msgs, true, true⟩, .sessionIdle sid, .resume 0 ⟨msgs, true, true⟩]).2
      = 1 ∧
    countTts (runSteps env ⟨st, []⟩
      [.sessionIdle sid, .resume 0 ⟨msgs, true, true⟩, .resume 0 ⟨msgs, true, true⟩,
       .resume 0 ⟨msgs, true, true⟩, .voiceSpeak, .resume 0 ⟨msgs, true, true⟩,
       .resume 0 ⟨msgs, true, true⟩, .resume 0 ⟨msgs, true, true⟩]).2 = 2 := by
  have hs1 : stepCmd env ⟨st, []⟩ (.sessionIdle sid)
      = (⟨{ st with lastSessionID := some sid, speaking := true },
          [.pipeline ⟨sid, .idle⟩ (st.config.voiceId.getD "") (resolvedModel st.config)
            (audioFormatFor (some st.config.outputFormat)).outputFormat .fetching]⟩,
         []) := by
    rw [sessionIdle_step env st { st with lastSessionID := some sid } [] sid hmode rfl]
    rw [applyEntry_eq env _ [] _ _ _ _
      (entry_start env { st with lastSessionID := some sid } ⟨sid, .idle⟩ hen hsp hkey hvid)]
    rfl
  have hs2 : stepCmd env ⟨{ st with lastSessionID := some sid, speaking := true },
      [.pipeline ⟨sid, .idle⟩ (st.config.voiceId.getD "") (resolvedModel st.config)
        (audioFormatFor (some st.config.outputFormat)).outputFormat .fetching]⟩
      (.resume 0 ⟨msgs, true, true⟩)
      = (⟨{ st with lastSessionID := some sid, speaking := true },
          [.pipeline ⟨sid, .idle⟩ (st.config.voiceId.getD "") (resolvedModel st.config)
            (audioFormatFor (some st.config.outputFormat)).outputFormat
            (.awaitingTts L)]⟩,
         [.ttsCall sid L.text (st.config.voiceId.getD "") (resolvedModel st.config)
            (audioFormatFor (some st.config.outputFormat)).outputFormat]) := by
    rw [stepCmd_resume, stepResume_single]
    rw [fetch_to_tts env { st with lastSessionID := some sid, speaking := true }
      sid .idle _ _ _ ⟨msgs, true, true⟩ L hL (fun h => hnew h.2) htr]
  have hs3 : stepCmd env ⟨{ st with lastSessionID := some sid, speaking := true },
      [.pipeline ⟨sid, .idle⟩ (st.config.voiceId.getD "") (resolvedModel st.config)
        (audioFormatFor (some st.config.outputFormat)).outputFormat (.awaitingTts L)]⟩
      (.resume 0 ⟨msgs, true, true⟩)
      = (⟨{ st with lastSessionID := some sid, speaking := true },
          [.pipeline ⟨sid, .idle⟩ (st.config.voiceId.getD "") (resolvedModel st.config)
            (audioFormatFor (some st.config.outputFormat)).outputFormat
            (.awaitingPlay L)]⟩,
         [.playbackStart sid]) := by
    rw [stepCmd_resume, stepResume_single]
    rw [tts_ok_step env { st with lastSessionID := some sid, speaking := true }
      sid .idle _ _ _ L ⟨msgs, true, true⟩ rfl]
  have hs4 : stepCmd env ⟨{ st with lastSessionID := some sid, speaking := true },
      [.pipeline ⟨sid, .idle⟩ (st.config.voiceId.getD "") (resolvedModel st.config)
        (audioFormatFor (some st.config.outputFormat)).outputFormat (.awaitingPlay L)]⟩
      (.resume 0 ⟨msgs, true, true⟩)
      = (⟨{ st with lastSessionID := some sid, speaking := false, lastSpoken := mapSet st.lastSpoken sid L.messageID }, []⟩, []) := by
    rw [stepCmd_resume, stepResume_single]
    rw [play_ok_step env { st with lastSessionID := some sid, speaking := true }
      sid .idle _ _ _ L ⟨msgs, true, true⟩ rfl hpd]
  have hs5 : stepCmd env ⟨{ st with lastSessionID := some sid, speaking := false, lastSpoken := mapSet st.lastSpoken sid L.messageID }, []⟩ (.sessionIdle sid)
      = (⟨{ st with lastSessionID := some sid, speaking := true, lastSpoken := mapSet st.lastSpoken sid L.messageID },
          [.pipeline ⟨sid, .idle⟩ (st.config.voiceId.getD "") (resolvedModel st.config)
            (audioFormatFor (some st.config.outputFormat)).outputFormat .fetching]⟩,
         []) := by
    rw [sessionIdle_step env { st with lastSessionID := some sid, speaking := false, lastSpoken := mapSet st.lastSpoken sid L.messageID } { st with lastSessionID := some sid, speaking := false, lastSpoken := mapSet st.lastSpoken sid L.messageID } [] sid hmode rfl]
    rw [applyEntry_eq env _ [] _ _ _ _ (entry_start env { st with lastSessionID := some sid, speaking := false, lastSpoken := mapSet st.lastSpoken sid L.messageID } ⟨sid, .idle⟩ hen rfl hkey hvid)]
    rfl
  have hs6 : stepCmd env ⟨{ st with lastSessionID := some sid, speaking := true, lastSpoken := mapSet st.lastSpoken sid L.messageID },
      [.pipeline ⟨sid, .idle⟩ (st.config.voiceId.getD "") (resolvedModel st.config)
        (audioFormatFor (some st.config.outputFormat)).outputFormat .fetching]⟩
      (.resume 0 ⟨msgs, true, true⟩)
      = (⟨{ st with lastSessionID := some sid, speaking := false, lastSpoken := mapSet st.lastSpoken sid L.messageID }, []⟩, []) := by
    rw [stepCmd_resume, stepResume_single]
    rw [fetch_dup env { st with lastSessionID := some sid, speaking := true, lastSpoken := mapSet st.lastSpoken sid L.messageID }
      sid .idle _ _ _ ⟨msgs, true, true⟩ L hL
      ⟨rfl, mapGet_mapSet_self st.lastSpoken sid L.messageID⟩ hpd]
  refine ⟨?_, ?_⟩
  · rw [runSteps_step env _ _ _ _ _ hs1, runSteps_step env _ _ _ _ _ hs2,
       runSteps_step env _ _ _ _ _ hs3, runSteps_step env _ _ _ _ _ hs4,
       runSteps_step env _ _ _ _ _ hs5, runSteps_step env _ _ _ _ _ hs6,
       runSteps_nil]
    simp [countTts, List.countP_append, List.countP_cons, isTtsAction]
  · have hs5m : stepCmd env ⟨{ st with lastSessionID := some sid, speaking := false, lastSpoken := mapSet st.lastSpoken sid L.messageID }, []⟩ .voiceSpeak
        = (⟨{ st with lastSessionID := some sid, speaking := true, lastSpoken := mapSet st.lastSpoken sid L.messageID },
            [.pipeline ⟨sid, .manual⟩ (st.config.voiceId.getD "") (resolvedModel st.config)
              (audioFormatFor (some st.config.outputFormat)).outputFormat .fetching]⟩,
           []) := by
      rw [stepCmd]
      dsimp only
      rw [applyEntry_eq env _ [] _ _ _ _ (entry_start env { st with lastSessionID := some sid, speaking := false, lastSpoken := mapSet st.lastSpoken sid L.messageID } ⟨sid, .manual⟩ hen rfl hkey hvid)]
      rfl
    have hs6m : stepCmd env ⟨{ st with lastSessionID := some sid, speaking := true, lastSpoken := mapSet st.lastSpoken sid L.messageID },
        [.pipeline ⟨sid, .manual⟩ (st.config.voiceId.getD "") (resolvedModel st.config)
          (audioFormatFor (some st.config.outputFormat)).outputFormat .fetching]⟩
        (.resume 0 ⟨msgs, true, true⟩)
        = (⟨{ st with lastSessionID := some sid, speaking := true, lastSpoken := mapSet st.lastSpoken sid L.messageID },
            [.pipeline ⟨sid, .manual⟩ (st.config.voiceId.getD "") (resolvedModel st.config)
              (audioFormatFor (some st.config.outputFormat)).outputFormat
              (.awaitingTts L)]⟩,
           [.ttsCall sid L.text (st.config.voiceId.getD "") (resolvedModel st.config)
              (audioFormatFor (some st.config.outputFormat)).outputFormat]) := by
      rw [stepCmd_resume, stepResume_single]
      rw [fetch_to_tts env { st with lastSessionID := some sid, speaking := true, lastSpoken := mapSet st.lastSpoken sid L.messageID }
        sid .manual _ _ _ ⟨msgs, true, true⟩ L hL
        (fun h => absurd h.1 (by decide)) htr]
    have hs7m : stepCmd env ⟨{ st with lastSessionID := some sid, speaking := true, lastSpoken := mapSet st.lastSpoken sid L.messageID },
        [.pipeline ⟨sid, .manual⟩ (st.config.voiceId.getD "") (resolvedModel st.config)
          (audioFormatFor (some st.config.outputFormat)).outputFormat (.awaitingTts L)]⟩
        (.resume 0 ⟨msgs, true, true⟩)
        = (⟨{ st with lastSessionID := some sid, speaking := true, lastSpoken := mapSet st.lastSpoken sid L.messageID },
            [.pipeline ⟨sid, .manual⟩ (st.config.voiceId.getD "") (resolvedModel st.config)
              (audioFormatFor (some st.config.outputFormat)).outputFormat
              (.awaitingPlay L)]⟩,
           [.playbackStart sid]) := by
      rw [stepCmd_resume, stepResume_single]
      rw [tts_ok_step env { st with lastSessionID := some sid, speaking := true, lastSpoken := mapSet st.lastSpoken sid L.messageID }
        sid .manual _ _ _ L ⟨msgs, true, true⟩ rfl]
    have hs8m : stepCmd env ⟨{ st with lastSessionID := some sid, speaking := true, lastSpoken := mapSet st.lastSpoken sid L.messageID },
        [.pipeline ⟨sid, .manual⟩ (st.config.voiceId.getD "") (resolvedModel st.config)
          (audioFormatFor (some st.config.outputFormat)).outputFormat (.awaitingPlay L)]⟩
        (.resume 0 ⟨msgs, true, true⟩)
        = (⟨{ st with lastSessionID := some sid, speaking := false, lastSpoken := mapSet (mapSet st.lastSpoken sid L.messageID) sid L.messageID }, []⟩, []) := by
      rw [stepCmd_resume, stepResume_single]
      rw [play_ok_step env { st with lastSessionID := some sid, speaking := true, lastSpoken := mapSet st.lastSpoken sid L.messageID }
        sid .manual _ _ _ L ⟨msgs, true, true⟩ rfl hpd]
    rw [runSteps_step env _ _ _ _ _ hs1, runSteps_step env _ _ _ _ _ hs2,
       runSteps_step env _ _ _ _ _ hs3, runSteps_step env _ _ _ _ _ hs4,
       runSteps_step env _ _ _ _ _ hs5m, runSteps_step env _ _ _ _ _ hs6m,
       runSteps_step env _ _ _ _ _ hs7m, runSteps_step env _ _ _ _ _ hs8m,
       runSteps_nil]
    simp [countTts, List.countP_append, List.countP_cons, isTtsAction]

/-- C5 witness: the scenario evaluated at a concrete state and message list. -/
theorem c5_duplicate_suppression_witness :
    countTts (runSteps wEnv ⟨wState, []⟩
      [.sessionIdle "s1", .resume 0 ⟨wMsgs, true, true⟩, .resume 0 ⟨wMsgs, true, true⟩,
       .resume 0 ⟨wMsgs, true, true⟩, .sessionIdle "s1", .resume 0 ⟨wMsgs, true, true⟩]).2
      = 1 ∧
    countTts (runSteps wEnv ⟨wState, []⟩
      [.sessionIdle "s1", .resume 0 ⟨wMsgs, true, true⟩, .resume 0 ⟨wMsgs, true, true⟩,
       .resume 0 ⟨wMsgs, true, true⟩, .voiceSpeak, .resume 0 ⟨wMsgs, true, true⟩,
       .resume 0 ⟨wMsgs, true, true⟩, .resume 0 ⟨wMsgs, true, true⟩]).2 = 2 :=
  c5_duplicate_suppression wEnv wState wMsgs wLatest "s1" (by decide) (by decide)
    (by decide) (by decide) rfl rfl (by decide) rfl (by decide)

end OpencodeVoice
